import Mathlib

/-
  Shallow embedding of the mamidon/fizzbuzz transaction-ledger engine.

  Source files embedded: src/main.rs (the fixed-point `Money` type and its
  parsing), src/transactions.rs (`Id`, `TransactionText`, `TransactionRecord`),
  src/accounts.rs (`AccountStatus`, `Account`, `AccountSummary`,
  `AccountDatabase`).

  Modelling conventions:
  - `Money(u64)` is modelled as `Nat`.  Addition in the source is plain `u64`
    addition assumed not to overflow; subtraction in the source is `u64`
    subtraction whose every call site is guarded so that the subtrahend never
    exceeds the minuend (the withdrawal branch requires `amount < available`,
    the dispute/resolve/chargeback branches subtract `min` of the balance),
    where truncated `Nat` subtraction coincides with it.
  - Rust strings are modelled as `List Char`; `str::trim`, `str::split('.')`
    and `str::parse::<u64>()` are modelled by `trimChars`, `splitDot` and
    `parseU64` below.
  - `HashMap<u32, TransactionRecord>` and `HashSet<u32>` are modelled as
    functions `Nat → Option TransactionRecord` and `Nat → Bool` (pointwise
    maps; the source only ever queries and updates single keys).
    `BTreeMap<u16, Account>` is modelled as a key-unique association list,
    because the engine iterates over it (summaries, totals).
-/

namespace Fizzbuzz

/-! ## Money (src/main.rs) -/

/-- Fixed-precision money: `Money(u64)` scaled by 10000, modelled as `Nat`. -/
abbrev Money := Nat

/-- `u64::MAX`, the bound of the backing integer of `Money`. -/
def u64Max : Nat := 18446744073709551615

/-- `enum MoneyParseError` from src/main.rs. -/
inductive MoneyParseError where
  | ExceededPrecision
  | Malformed
deriving DecidableEq, Repr

/-- `Money::zero()` from src/main.rs. -/
def Money.zero : Money := 0

/-- Model of Rust `str::trim` on a character list: strips leading and
trailing whitespace. -/
def trimChars (s : List Char) : List Char :=
  ((s.dropWhile Char.isWhitespace).reverse.dropWhile Char.isWhitespace).reverse

/-- Model of Rust `str::split('.')`: the list of chunks between the dots,
empty chunks preserved (`split` on a `&str` always yields at least one part). -/
def splitDot : List Char → List (List Char)
  | [] => [[]]
  | c :: rest =>
    match splitDot rest with
    | [] => [[]]
    | p :: ps => if c = '.' then [] :: p :: ps else (c :: p) :: ps

/-- Model of Rust `str::parse::<u64>()`: an optional leading `+`, then a
non-empty run of ASCII digits, rejecting values above `u64::MAX`. -/
def parseU64 (s : List Char) : Option Nat :=
  let digits := match s with
    | '+' :: rest => rest
    | other => other
  if digits = [] then none
  else if digits.all Char.isDigit then
    let n := digits.foldl (fun acc c => acc * 10 + (c.toNat - 48)) 0
    if n ≤ u64Max then some n else none
  else none

/-- `Money::parse_whole_part` from src/main.rs: parse as `u64`
(`Malformed` on failure), reject `whole > u64::MAX / 10000` as
`ExceededPrecision`, otherwise scale by 10000. -/
def Money.parse_whole_part (text : List Char) : Except MoneyParseError Nat :=
  match parseU64 text with
  | none => .error .Malformed
  | some whole =>
    if whole > u64Max / 10000 then .error .ExceededPrecision
    else .ok (whole * 10000)

/-- `Money::parse_decimal_part` from src/main.rs: parse as `u64`
(`Malformed` on failure), reject values above 9999 as `ExceededPrecision`. -/
def Money.parse_decimal_part (text : List Char) : Except MoneyParseError Nat :=
  match parseU64 text with
  | none => .error .Malformed
  | some decimal =>
    if decimal > 9999 then .error .ExceededPrecision
    else .ok decimal

/-- `<Money as FromStr>::from_str` from src/main.rs: trim, reject the empty
string, split on `.`, then one part parses as a whole amount and two parts as
whole plus decimal; any other number of parts is `Malformed`. -/
def Money.from_str (s : List Char) : Except MoneyParseError Money :=
  let trimmed := trimChars s
  if trimmed.length = 0 then .error .Malformed
  else
    match splitDot trimmed with
    | [] => .error .Malformed
    | [p0] => do
      let w ← Money.parse_whole_part p0
      return w
    | [p0, p1] => do
      let w ← Money.parse_whole_part p0
      let d ← Money.parse_decimal_part p1
      return w + d
    | _ => .error .Malformed

/-- `<Money as ToString>::to_string` from src/main.rs: whole part, a dot,
then the (unpadded) remainder. -/
def Money.to_string (m : Money) : String :=
  toString (m / 10000) ++ "." ++ toString (m % 10000)

/-! ## Transactions (src/transactions.rs) -/

/-- `struct TransactionText` from src/transactions.rs (raw CSV fields). -/
structure TransactionText where
  kind : String
  client_id : String
  transaction_id : String
  amount : Option String
deriving DecidableEq, Repr

/-- `struct Id` from src/transactions.rs: `client_id: u16`,
`transaction_id: u32`. -/
structure Id where
  client_id : Nat
  transaction_id : Nat
deriving DecidableEq, Repr

/-- `enum TransactionRecord` from src/transactions.rs (the source spells
the withdrawal variant `Withdrawl`). -/
inductive TransactionRecord where
  | Deposit (id : Id) (amount : Money)
  | Withdrawl (id : Id) (amount : Money)
  | Dispute (id : Id)
  | Resolve (id : Id)
  | Chargeback (id : Id)
deriving DecidableEq, Repr

/-- `TransactionRecord::id` from src/transactions.rs. -/
def TransactionRecord.id : TransactionRecord → Id
  | .Deposit id _ => id
  | .Withdrawl id _ => id
  | .Dispute id => id
  | .Resolve id => id
  | .Chargeback id => id

/-- `TransactionRecord::amount` from src/transactions.rs: the carried amount
for Deposit/Withdrawl, zero for the dispute-lifecycle kinds. -/
def TransactionRecord.amount : TransactionRecord → Money
  | .Deposit _ amount => amount
  | .Withdrawl _ amount => amount
  | .Dispute _ => Money.zero
  | .Resolve _ => Money.zero
  | .Chargeback _ => Money.zero

/-- Whether a record is a Chargeback. -/
def TransactionRecord.isChargeback : TransactionRecord → Bool
  | .Chargeback _ => true
  | _ => false

/-! ## Accounts (src/accounts.rs) -/

/-- `enum AccountStatus` from src/accounts.rs. -/
inductive AccountStatus where
  | Unknown (text : TransactionText)
  | Active
  | Locked
deriving DecidableEq, Repr

/-- `struct Account` from src/accounts.rs. -/
structure Account where
  client_id : Nat
  available : Money
  held : Money
  status : AccountStatus
deriving DecidableEq, Repr

/-- `struct AccountSummary` from src/accounts.rs. -/
structure AccountSummary where
  client_id : Nat
  available : String
  held : String
  total : String
  locked : Bool
deriving DecidableEq, Repr

/-- `Account::create` from src/accounts.rs. -/
def Account.create (client_id : Nat) : Account :=
  { client_id := client_id
    available := Money.zero
    held := Money.zero
    status := .Active }

/-- `impl Into<AccountSummary> for &Account` from src/accounts.rs. -/
def Account.to_summary (a : Account) : AccountSummary :=
  { client_id := a.client_id
    available := Money.to_string a.available
    held := Money.to_string a.held
    total := Money.to_string (a.available + a.held)
    locked := decide (a.status = AccountStatus.Locked) }

/-- `Account::apply` from src/accounts.rs: the per-account balance state
machine.  The dispute-lifecycle branches update `held` first and `available`
second (resp. `available` first and `held` second) exactly as the source
does; both reads are of the pre-call balances, so the record update below is
the same simultaneous assignment. -/
def Account.apply (a : Account) (transaction : TransactionRecord)
    (disputed_amount : Money) : Account :=
  match transaction with
  | .Deposit _ amount => { a with available := a.available + amount }
  | .Withdrawl _ amount =>
    if amount < a.available then { a with available := a.available - amount }
    else a
  | .Dispute _ =>
    { a with
      held := a.held + min a.available disputed_amount
      available := a.available - min a.available disputed_amount }
  | .Resolve _ =>
    { a with
      available := a.available + min a.held disputed_amount
      held := a.held - min a.held disputed_amount }
  | .Chargeback _ =>
    let a' := if Money.zero < disputed_amount
      then { a with status := AccountStatus.Locked } else a
    { a' with
      available := a'.available + min a'.held disputed_amount
      held := a'.held - min a'.held disputed_amount }

/-! ## Association-list map (model of `BTreeMap<u16, Account>`) -/

/-- Lookup in an association list (first matching key). -/
def alistLookup {α : Type} : List (Nat × α) → Nat → Option α
  | [], _ => none
  | (k', v) :: rest, k => if k' = k then some v else alistLookup rest k

/-- Insert-or-replace in an association list (replaces the first entry with
the given key, appends otherwise) — the map-update semantics of
`BTreeMap::insert` / `Entry::or_insert`. -/
def alistInsert {α : Type} : List (Nat × α) → Nat → α → List (Nat × α)
  | [], k, v => [(k, v)]
  | (k', v') :: rest, k, v =>
    if k' = k then (k, v) :: rest else (k', v') :: alistInsert rest k v

/-! ## AccountDatabase (src/accounts.rs) -/

/-- `struct AccountDatabase` from src/accounts.rs: the account map, the
transaction log (Deposit/Withdrawl only in practice), and the set of
currently disputed transaction ids. -/
structure AccountDatabase where
  accounts : List (Nat × Account)
  transactions : Nat → Option TransactionRecord
  disputed_transactions : Nat → Bool

/-- `AccountDatabase::new` from src/accounts.rs. -/
def AccountDatabase.new : AccountDatabase :=
  { accounts := []
    transactions := fun _ => none
    disputed_transactions := fun _ => false }

/-- `AccountDatabase::can_process_transaction` from src/accounts.rs: the
pure acceptance predicate over the record, the transaction log and the
disputed set. -/
def AccountDatabase.can_process_transaction (transaction : TransactionRecord)
    (recorded_transactions : Nat → Option TransactionRecord)
    (disputed_transactions : Nat → Bool) : Bool :=
  let transaction_has_been_recorded :=
    (recorded_transactions transaction.id.transaction_id).isSome
  let transaction_is_currently_disputed :=
    disputed_transactions transaction.id.transaction_id
  let client_ids_are_consistent :=
    match recorded_transactions transaction.id.transaction_id with
    | some t => decide (t.id.client_id = transaction.id.client_id)
    | none => true
  match transaction with
  | .Deposit _ _ => !transaction_has_been_recorded
  | .Withdrawl _ _ => !transaction_has_been_recorded
  | .Dispute _ =>
    transaction_has_been_recorded && !transaction_is_currently_disputed &&
      client_ids_are_consistent
  | .Resolve _ =>
    transaction_has_been_recorded && transaction_is_currently_disputed &&
      client_ids_are_consistent
  | .Chargeback _ =>
    transaction_has_been_recorded && transaction_is_currently_disputed &&
      client_ids_are_consistent

/-- `AccountDatabase::get_disputed_amount` from src/accounts.rs: the amount
of the referenced log entry for the dispute-lifecycle kinds, zero
otherwise. -/
def AccountDatabase.get_disputed_amount (transaction : TransactionRecord)
    (recorded_transactions : Nat → Option TransactionRecord) : Money :=
  let related_transaction := match transaction with
    | .Deposit _ _ => none
    | .Withdrawl _ _ => none
    | .Dispute id => recorded_transactions id.transaction_id
    | .Resolve id => recorded_transactions id.transaction_id
    | .Chargeback id => recorded_transactions id.transaction_id
  match related_transaction with
  | some disputed_transaction => disputed_transaction.amount
  | none => Money.zero

/-- `AccountDatabase::record_transaction` from src/accounts.rs: bookkeeping
effects — Deposit/Withdrawl insert into the log, Dispute inserts the id into
the disputed set, Resolve/Chargeback remove it.  Returns the updated
(log, disputed set) pair. -/
def AccountDatabase.record_transaction (transaction : TransactionRecord)
    (transactions : Nat → Option TransactionRecord)
    (disputed_transactions : Nat → Bool) :
    (Nat → Option TransactionRecord) × (Nat → Bool) :=
  match transaction with
  | .Deposit _ _ =>
    (fun k => if k = transaction.id.transaction_id then some transaction
       else transactions k,
     disputed_transactions)
  | .Withdrawl _ _ =>
    (fun k => if k = transaction.id.transaction_id then some transaction
       else transactions k,
     disputed_transactions)
  | .Dispute _ =>
    (transactions,
     fun k => if k = transaction.id.transaction_id then true
       else disputed_transactions k)
  | .Resolve _ =>
    (transactions,
     fun k => if k = transaction.id.transaction_id then false
       else disputed_transactions k)
  | .Chargeback _ =>
    (transactions,
     fun k => if k = transaction.id.transaction_id then false
       else disputed_transactions k)

/-- The account the store works on for a client id: the existing entry, or a
fresh `Account::create` — the lookup half of
`self.accounts.entry(client_id).or_insert(Account::create(client_id))`. -/
def currentAccount (db : AccountDatabase) (client_id : Nat) : Account :=
  (alistLookup db.accounts client_id).getD (Account.create client_id)

/-- `AccountDatabase::apply` from src/accounts.rs: lazily create the
addressed account (the `entry(..).or_insert(..)` happens before the
acceptance check), then, if the record is accepted, record bookkeeping,
compute the disputed amount from the *updated* log, and apply the balance
mutation. -/
def AccountDatabase.apply (db : AccountDatabase)
    (transaction : TransactionRecord) : AccountDatabase :=
  let client_id := transaction.id.client_id
  let account := currentAccount db client_id
  if AccountDatabase.can_process_transaction transaction db.transactions
      db.disputed_transactions then
    let recorded := AccountDatabase.record_transaction transaction
      db.transactions db.disputed_transactions
    let disputed_amount :=
      AccountDatabase.get_disputed_amount transaction recorded.1
    { accounts := alistInsert db.accounts client_id
        (account.apply transaction disputed_amount)
      transactions := recorded.1
      disputed_transactions := recorded.2 }
  else
    { db with accounts := alistInsert db.accounts client_id account }

/-- Sequential ingestion: the driver loop of `read_transactions` in
src/main.rs feeds records one at a time into `AccountDatabase::apply`. -/
def applyAll : AccountDatabase → List TransactionRecord → AccountDatabase
  | db, [] => db
  | db, t :: ts => applyAll (db.apply t) ts

/-- Sum of `available + held` over an account association list. -/
def fundsSum : List (Nat × Account) → Nat
  | [] => 0
  | p :: rest => (p.2.available + p.2.held) + fundsSum rest

/-- Total funds in the store: `available + held` summed over all accounts. -/
def totalFunds (db : AccountDatabase) : Nat :=
  fundsSum db.accounts

/-- Whether a record is a Deposit or a Withdrawl (the two kinds that claim a
transaction id in the log). -/
def TransactionRecord.isBalanceKind : TransactionRecord → Bool
  | .Deposit _ _ => true
  | .Withdrawl _ _ => true
  | _ => false

/-! ## Association-list lemmas -/

theorem alistLookup_insert_self {α : Type} (l : List (Nat × α)) (k : Nat)
    (v : α) : alistLookup (alistInsert l k v) k = some v := by
  induction l with
  | nil => simp [alistInsert, alistLookup]
  | cons hd tl ih =>
    obtain ⟨k0, v0⟩ := hd
    by_cases h : k0 = k
    · simp [alistInsert, alistLookup, h]
    · simp only [alistInsert, if_neg h, alistLookup]
      exact ih

theorem alistLookup_insert_ne {α : Type} (l : List (Nat × α)) (k k' : Nat)
    (v : α) (h : k' ≠ k) :
    alistLookup (alistInsert l k v) k' = alistLookup l k' := by
  induction l with
  | nil => simp [alistInsert, alistLookup, Ne.symm h]
  | cons hd tl ih =>
    obtain ⟨k0, v0⟩ := hd
    by_cases hk : k0 = k
    · subst hk
      simp [alistInsert, alistLookup, Ne.symm h]
    · simp only [alistInsert, if_neg hk, alistLookup]
      rw [ih]

theorem alistInsert_lookup_eq {α : Type} (l : List (Nat × α)) (k : Nat)
    (v : α) (h : alistLookup l k = some v) : alistInsert l k v = l := by
  induction l with
  | nil => simp [alistLookup] at h
  | cons hd tl ih =>
    obtain ⟨k0, v0⟩ := hd
    by_cases hk : k0 = k
    · simp only [alistLookup, if_pos hk] at h
      obtain rfl : v0 = v := by exact Option.some.inj h
      simp [alistInsert, hk]
    · simp only [alistLookup, if_neg hk] at h
      simp [alistInsert, hk, ih h]

theorem fundsSum_insert_none (l : List (Nat × Account)) (k : Nat) (a : Account)
    (h : alistLookup l k = none) :
    fundsSum (alistInsert l k a) = fundsSum l + (a.available + a.held) := by
  induction l with
  | nil => simp [alistInsert, fundsSum]
  | cons hd tl ih =>
    obtain ⟨k0, v0⟩ := hd
    by_cases hk : k0 = k
    · simp [alistLookup, hk] at h
    · simp only [alistLookup, if_neg hk] at h
      simp only [alistInsert, if_neg hk, fundsSum]
      rw [ih h]
      ring

theorem fundsSum_insert_some (l : List (Nat × Account)) (k : Nat)
    (a b : Account) (h : alistLookup l k = some b) :
    fundsSum (alistInsert l k a) + (b.available + b.held)
      = fundsSum l + (a.available + a.held) := by
  induction l with
  | nil => simp [alistLookup] at h
  | cons hd tl ih =>
    obtain ⟨k0, v0⟩ := hd
    by_cases hk : k0 = k
    · simp only [alistLookup, if_pos hk] at h
      obtain rfl : v0 = b := by exact Option.some.inj h
      simp only [alistInsert, if_pos hk, fundsSum]
      ring
    · simp only [alistLookup, if_neg hk] at h
      simp only [alistInsert, if_neg hk, fundsSum]
      have e := ih h
      omega

theorem nat_sub_add_rearrange (x y m : Nat) (hm : m ≤ x) :
    x - m + (y + m) = x + y := by
  omega

/-! ## Store-level unfolding lemmas -/

theorem apply_def_accepted (db : AccountDatabase) (t : TransactionRecord)
    (h : AccountDatabase.can_process_transaction t db.transactions
      db.disputed_transactions = true) :
    db.apply t =
      { accounts := alistInsert db.accounts t.id.client_id
          ((currentAccount db t.id.client_id).apply t
            (AccountDatabase.get_disputed_amount t
              (AccountDatabase.record_transaction t db.transactions
                db.disputed_transactions).1))
        transactions := (AccountDatabase.record_transaction t db.transactions
          db.disputed_transactions).1
        disputed_transactions := (AccountDatabase.record_transaction t
          db.transactions db.disputed_transactions).2 } := by
  simp [AccountDatabase.apply, h]

theorem apply_def_rejected (db : AccountDatabase) (t : TransactionRecord)
    (h : AccountDatabase.can_process_transaction t db.transactions
      db.disputed_transactions = false) :
    db.apply t =
      { db with
        accounts := alistInsert db.accounts t.id.client_id
          (currentAccount db t.id.client_id) } := by
  simp [AccountDatabase.apply, h]

/-! ## Claim C2 — withdrawal strict-less-than rule -/

/-- Claim C2: for every account and every accepted Withdrawal record, the
mutation `available -= amount` happens only when `amount < available`
(strict): in that case the new available balance satisfies
`new + amount = old` (exact subtraction, hence never below zero), and the
held balance and status are untouched; when `amount ≥ available` — in
particular when `amount = available` — the account is left exactly
unchanged. -/
theorem c2_withdrawal_strict_inequality (db : AccountDatabase) (id : Id)
    (amount : Money)
    (h : AccountDatabase.can_process_transaction (.Withdrawl id amount)
      db.transactions db.disputed_transactions = true) :
    (amount < (currentAccount db id.client_id).available →
      (currentAccount (db.apply (.Withdrawl id amount)) id.client_id).available
          + amount = (currentAccount db id.client_id).available ∧
      (currentAccount (db.apply (.Withdrawl id amount)) id.client_id).available
          = (currentAccount db id.client_id).available - amount ∧
      (currentAccount (db.apply (.Withdrawl id amount)) id.client_id).held
          = (currentAccount db id.client_id).held ∧
      (currentAccount (db.apply (.Withdrawl id amount)) id.client_id).status
          = (currentAccount db id.client_id).status) ∧
    (¬ amount < (currentAccount db id.client_id).available →
      currentAccount (db.apply (.Withdrawl id amount)) id.client_id
        = currentAccount db id.client_id) ∧
    (amount = (currentAccount db id.client_id).available →
      currentAccount (db.apply (.Withdrawl id amount)) id.client_id
        = currentAccount db id.client_id) := by
  have e := apply_def_accepted db (.Withdrawl id amount) h
  have hacc : currentAccount (db.apply (.Withdrawl id amount)) id.client_id
      = (currentAccount db id.client_id).apply (.Withdrawl id amount)
        (AccountDatabase.get_disputed_amount (.Withdrawl id amount)
          (AccountDatabase.record_transaction (.Withdrawl id amount)
            db.transactions db.disputed_transactions).1) := by
    rw [e]
    simp [currentAccount, TransactionRecord.id, alistLookup_insert_self]
  refine ⟨?_, ?_, ?_⟩
  · intro h'
    have e2 : ∀ d0, (currentAccount db id.client_id).apply
        (.Withdrawl id amount) d0
          = (⟨(currentAccount db id.client_id).client_id,
              (currentAccount db id.client_id).available - amount,
              (currentAccount db id.client_id).held,
              (currentAccount db id.client_id).status⟩ : Account) := by
      intro d0
      simp [Account.apply, if_pos h']
    rw [hacc, e2]
    exact ⟨Nat.sub_add_cancel (Nat.le_of_lt h'), rfl, rfl, rfl⟩
  · intro h'
    have e2 : ∀ d0, (currentAccount db id.client_id).apply
        (.Withdrawl id amount) d0 = currentAccount db id.client_id := by
      intro d0
      simp [Account.apply, if_neg h']
    rw [hacc, e2]
  · intro h'
    have h'' : ¬ amount < (currentAccount db id.client_id).available := by
      rw [h']
      exact Nat.lt_irrefl _
    have e2 : ∀ d0, (currentAccount db id.client_id).apply
        (.Withdrawl id amount) d0 = currentAccount db id.client_id := by
      intro d0
      simp [Account.apply, if_neg h'']
    rw [hacc, e2]

/-- Witness for C2: on a store holding a single deposit of 10 units for
client 1, a withdrawal of 4 units is accepted and subtracted exactly, and a
withdrawal of exactly 10 units leaves the account unchanged. -/
theorem c2_witness :
    AccountDatabase.can_process_transaction (.Withdrawl ⟨1, 2⟩ 40000)
      (AccountDatabase.new.apply (.Deposit ⟨1, 1⟩ 100000)).transactions
      (AccountDatabase.new.apply (.Deposit ⟨1, 1⟩ 100000)).disputed_transactions
        = true ∧
    (currentAccount ((AccountDatabase.new.apply (.Deposit ⟨1, 1⟩ 100000)).apply
      (.Withdrawl ⟨1, 2⟩ 40000)) 1).available + 40000
        = (currentAccount (AccountDatabase.new.apply
            (.Deposit ⟨1, 1⟩ 100000)) 1).available ∧
    currentAccount ((AccountDatabase.new.apply (.Deposit ⟨1, 1⟩ 100000)).apply
      (.Withdrawl ⟨1, 3⟩ 100000)) 1
        = currentAccount (AccountDatabase.new.apply (.Deposit ⟨1, 1⟩ 100000)) 1 := by
  refine ⟨by decide, ?_, ?_⟩
  · exact ((c2_withdrawal_strict_inequality
      (AccountDatabase.new.apply (.Deposit ⟨1, 1⟩ 100000)) ⟨1, 2⟩ 40000
      (by decide)).1 (by decide)).1
  · exact (c2_withdrawal_strict_inequality
      (AccountDatabase.new.apply (.Deposit ⟨1, 1⟩ 100000)) ⟨1, 3⟩ 100000
      (by decide)).2.2 (by decide)

/-! ## Claim C3 — dispute clamps to available -/

/-- Claim C3: for every accepted Dispute there is a referenced log entry
`t`; the mutation moves exactly `min(available, t.amount)` from available to
held (held grows by it, available shrinks by it, exactly), that moved amount
never exceeds the current available balance, the account status is
untouched, and `available + held` is conserved. -/
theorem c3_dispute_clamps_to_available (db : AccountDatabase) (id : Id)
    (h : AccountDatabase.can_process_transaction (.Dispute id)
      db.transactions db.disputed_transactions = true) :
    ∃ t, db.transactions id.transaction_id = some t ∧
      (currentAccount (db.apply (.Dispute id)) id.client_id).held
        = (currentAccount db id.client_id).held
          + min (currentAccount db id.client_id).available t.amount ∧
      (currentAccount (db.apply (.Dispute id)) id.client_id).available
          + min (currentAccount db id.client_id).available t.amount
        = (currentAccount db id.client_id).available ∧
      min (currentAccount db id.client_id).available t.amount
        ≤ (currentAccount db id.client_id).available ∧
      (currentAccount (db.apply (.Dispute id)) id.client_id).status
        = (currentAccount db id.client_id).status ∧
      (currentAccount (db.apply (.Dispute id)) id.client_id).available
          + (currentAccount (db.apply (.Dispute id)) id.client_id).held
        = (currentAccount db id.client_id).available
          + (currentAccount db id.client_id).held := by
  have hrec : (db.transactions id.transaction_id).isSome := by
    simp only [AccountDatabase.can_process_transaction,
      TransactionRecord.id, Bool.and_eq_true] at h
    exact h.1.1
  obtain ⟨t, ht⟩ := Option.isSome_iff_exists.mp hrec
  refine ⟨t, ht, ?_⟩
  have e := apply_def_accepted db (.Dispute id) h
  have hamt : AccountDatabase.get_disputed_amount (.Dispute id)
      (AccountDatabase.record_transaction (.Dispute id) db.transactions
        db.disputed_transactions).1 = t.amount := by
    simp [AccountDatabase.get_disputed_amount,
      AccountDatabase.record_transaction, ht]
  have hacc : currentAccount (db.apply (.Dispute id)) id.client_id
      = (currentAccount db id.client_id).apply (.Dispute id) t.amount := by
    rw [e, hamt]
    simp [currentAccount, TransactionRecord.id, alistLookup_insert_self]
  have e2 : (currentAccount db id.client_id).apply (.Dispute id) t.amount
      = (⟨(currentAccount db id.client_id).client_id,
          (currentAccount db id.client_id).available
            - min (currentAccount db id.client_id).available t.amount,
          (currentAccount db id.client_id).held
            + min (currentAccount db id.client_id).available t.amount,
          (currentAccount db id.client_id).status⟩ : Account) := by
    simp [Account.apply]
  rw [hacc, e2]
  have hmin : min (currentAccount db id.client_id).available t.amount
      ≤ (currentAccount db id.client_id).available := Nat.min_le_left _ _
  exact ⟨rfl, Nat.sub_add_cancel hmin, hmin, rfl, nat_sub_add_rearrange _ _ _ hmin⟩

/-- Witness for C3: client 1 deposits 42 units (tx 1) and withdraws 30
units (tx 2); the dispute of tx 1 is accepted and moves only the remaining
12 units into held, not the full 42. -/
theorem c3_witness :
    AccountDatabase.can_process_transaction (.Dispute ⟨1, 1⟩)
      (applyAll AccountDatabase.new
        [.Deposit ⟨1, 1⟩ 420000, .Withdrawl ⟨1, 2⟩ 300000]).transactions
      (applyAll AccountDatabase.new
        [.Deposit ⟨1, 1⟩ 420000, .Withdrawl ⟨1, 2⟩ 300000]).disputed_transactions
        = true ∧
    (currentAccount ((applyAll AccountDatabase.new
      [.Deposit ⟨1, 1⟩ 420000, .Withdrawl ⟨1, 2⟩ 300000]).apply
        (.Dispute ⟨1, 1⟩)) 1).held
      = (currentAccount (applyAll AccountDatabase.new
          [.Deposit ⟨1, 1⟩ 420000, .Withdrawl ⟨1, 2⟩ 300000]) 1).held
        + min (currentAccount (applyAll AccountDatabase.new
            [.Deposit ⟨1, 1⟩ 420000, .Withdrawl ⟨1, 2⟩ 300000]) 1).available
          420000 := by
  obtain ⟨t, ht, h1, -⟩ := c3_dispute_clamps_to_available
    (applyAll AccountDatabase.new
      [.Deposit ⟨1, 1⟩ 420000, .Withdrawl ⟨1, 2⟩ 300000]) ⟨1, 1⟩ (by decide)
  have hteq : t = .Deposit ⟨1, 1⟩ 420000 := by
    have : some t = some (.Deposit ⟨1, 1⟩ 420000) := by rw [← ht]; decide
    exact Option.some.inj this
  subst hteq
  exact ⟨by decide, h1⟩

/-! ## Claim C4 — chargeback balance effect and locking -/

/-- Claim C4: `Account.apply` on a Chargeback moves exactly
`min(held, disputed_amount)` from held back to available (identical balance
effect to Resolve), performs the lock transition exactly when the disputed
amount is strictly positive (otherwise the status is left as it was), and a
zero disputed amount changes no balances and does not lock. -/
theorem c4_chargeback_effect (a : Account) (id : Id) (d : Money) :
    (a.apply (.Chargeback id) d).available = a.available + min a.held d ∧
    (a.apply (.Chargeback id) d).held + min a.held d = a.held ∧
    (a.apply (.Chargeback id) d).status
      = (if Money.zero < d then AccountStatus.Locked else a.status) ∧
    (d = Money.zero →
      (a.apply (.Chargeback id) d).available = a.available ∧
      (a.apply (.Chargeback id) d).held = a.held ∧
      (a.apply (.Chargeback id) d).status = a.status) ∧
    (a.apply (.Chargeback id) d).available = (a.apply (.Resolve id) d).available ∧
    (a.apply (.Chargeback id) d).held = (a.apply (.Resolve id) d).held := by
  have e3 : a.apply (.Resolve id) d
      = (⟨a.client_id, a.available + min a.held d, a.held - min a.held d,
          a.status⟩ : Account) := by
    simp [Account.apply]
  by_cases h0 : Money.zero < d
  · have e2 : a.apply (.Chargeback id) d
        = (⟨a.client_id, a.available + min a.held d, a.held - min a.held d,
            AccountStatus.Locked⟩ : Account) := by
      simp [Account.apply, if_pos h0]
    rw [e2, e3, if_pos h0]
    refine ⟨rfl, Nat.sub_add_cancel (Nat.min_le_left a.held d), rfl, ?_, rfl, rfl⟩
    intro hd
    rw [hd] at h0
    exact absurd h0 (lt_irrefl _)
  · have e2 : a.apply (.Chargeback id) d
        = (⟨a.client_id, a.available + min a.held d, a.held - min a.held d,
            a.status⟩ : Account) := by
      simp [Account.apply, if_neg h0]
    have hd0 : d = 0 := by
      simp only [Money.zero, Nat.not_lt, Nat.le_zero] at h0
      exact h0
    rw [e2, e3, if_neg h0]
    subst hd0
    refine ⟨rfl, Nat.sub_add_cancel (Nat.min_le_left a.held 0), rfl,
      fun _ => ⟨?_, ?_, rfl⟩, rfl, rfl⟩
    · show a.available + min a.held 0 = a.available
      simp
    · show a.held - min a.held 0 = a.held
      simp

/-- Witness for C4: a concrete account with 5 units held, charged back with
disputed amount 7: all 5 held units return to available and the account
locks; with disputed amount 0 nothing changes and no lock happens. -/
theorem c4_witness :
    (Account.apply ⟨1, 20000, 50000, .Active⟩ (.Chargeback ⟨1, 1⟩) 70000).available
      = 20000 + min 50000 70000 ∧
    (Account.apply ⟨1, 20000, 50000, .Active⟩ (.Chargeback ⟨1, 1⟩) 70000).status
      = (if Money.zero < 70000 then AccountStatus.Locked else AccountStatus.Active) ∧
    (Account.apply ⟨1, 20000, 50000, .Active⟩ (.Chargeback ⟨1, 1⟩) 0).status
      = AccountStatus.Active := by
  refine ⟨(c4_chargeback_effect ⟨1, 20000, 50000, .Active⟩ ⟨1, 1⟩ 70000).1,
    (c4_chargeback_effect ⟨1, 20000, 50000, .Active⟩ ⟨1, 1⟩ 70000).2.2.1, ?_⟩
  exact ((c4_chargeback_effect ⟨1, 20000, 50000, .Active⟩ ⟨1, 1⟩ 0).2.2.2.1 rfl).2.2

/-! ## Claim C1 — rejected records -/

/-- Claim C1 counterexample: a Dispute on an unknown transaction id is
rejected by the acceptance predicate, yet applying it to the empty store
changes the account map (a default account for client 1 is lazily created
by the `entry(..).or_insert(..)` that runs before the acceptance check), so
the store state is not left exactly unchanged. -/
theorem c1_counterexample :
    AccountDatabase.can_process_transaction (.Dispute ⟨1, 1⟩)
      AccountDatabase.new.transactions
      AccountDatabase.new.disputed_transactions = false ∧
    (AccountDatabase.new.apply (.Dispute ⟨1, 1⟩)).accounts
      ≠ AccountDatabase.new.accounts := by
  exact ⟨by decide, by decide⟩

/-- Claim C1 (amended): for every record rejected by the acceptance
predicate, `apply` surfaces no error and leaves the transaction log, the
disputed set, and every other client's account entry exactly unchanged; the
addressed client's entry holds the pre-existing account (or a freshly
created default account when the client was unknown) — in particular, if
the addressed client already has an account the whole store is exactly
unchanged. -/
theorem c1_rejected_record_state (db : AccountDatabase)
    (t : TransactionRecord)
    (h : AccountDatabase.can_process_transaction t db.transactions
      db.disputed_transactions = false) :
    (db.apply t).transactions = db.transactions ∧
    (db.apply t).disputed_transactions = db.disputed_transactions ∧
    (∀ c, c ≠ t.id.client_id →
      alistLookup (db.apply t).accounts c = alistLookup db.accounts c) ∧
    alistLookup (db.apply t).accounts t.id.client_id
      = some (currentAccount db t.id.client_id) ∧
    (∀ a, alistLookup db.accounts t.id.client_id = some a →
      db.apply t = db) := by
  have e := apply_def_rejected db t h
  rw [e]
  refine ⟨rfl, rfl, ?_, ?_, ?_⟩
  · intro c hc
    exact alistLookup_insert_ne _ _ _ _ hc
  · exact alistLookup_insert_self _ _ _
  · intro a ha
    have hcur : currentAccount db t.id.client_id = a := by
      simp [currentAccount, ha]
    rw [hcur, alistInsert_lookup_eq _ _ _ ha]

/-- Witness for C1 (amended): a Resolve of an unrecorded transaction id on
a store where client 1 already has an account is rejected and the store is
exactly unchanged. -/
theorem c1_witness :
    AccountDatabase.can_process_transaction (.Resolve ⟨1, 5⟩)
      (AccountDatabase.new.apply (.Deposit ⟨1, 1⟩ 100000)).transactions
      (AccountDatabase.new.apply (.Deposit ⟨1, 1⟩ 100000)).disputed_transactions
        = false ∧
    (AccountDatabase.new.apply (.Deposit ⟨1, 1⟩ 100000)).apply (.Resolve ⟨1, 5⟩)
      = AccountDatabase.new.apply (.Deposit ⟨1, 1⟩ 100000) := by
  refine ⟨by decide, ?_⟩
  exact (c1_rejected_record_state
    (AccountDatabase.new.apply (.Deposit ⟨1, 1⟩ 100000)) (.Resolve ⟨1, 5⟩)
    (by decide)).2.2.2.2 ⟨1, 100000, 0, AccountStatus.Active⟩ (by decide)

/-! ## Claim C6 — replay of a recorded transaction id -/

theorem record_txs_self (t : TransactionRecord)
    (txs : Nat → Option TransactionRecord) (d : Nat → Bool)
    (h : t.isBalanceKind = true) :
    (AccountDatabase.record_transaction t txs d).1 t.id.transaction_id
      = some t := by
  cases t <;> simp [TransactionRecord.isBalanceKind] at h <;>
    simp [AccountDatabase.record_transaction]

theorem can_process_balance_iff (t : TransactionRecord)
    (txs : Nat → Option TransactionRecord) (d : Nat → Bool)
    (h : t.isBalanceKind = true) :
    AccountDatabase.can_process_transaction t txs d
      = !(txs t.id.transaction_id).isSome := by
  cases t <;> simp [TransactionRecord.isBalanceKind] at h <;>
    simp [AccountDatabase.can_process_transaction]

/-- Claim C6 counterexample: a Deposit replaying transaction id 1 under a
different client id (2) is rejected, yet applying it changes the store's
account map (client 2's default account is lazily created): the final state
after applying it is not the state after the first application alone, so
replay is not a no-op "regardless of the replayed record's client id". -/
theorem c6_counterexample :
    AccountDatabase.can_process_transaction (.Deposit ⟨2, 1⟩ 70000)
      (AccountDatabase.new.apply (.Deposit ⟨1, 1⟩ 50000)).transactions
      (AccountDatabase.new.apply (.Deposit ⟨1, 1⟩ 50000)).disputed_transactions
        = false ∧
    ((AccountDatabase.new.apply (.Deposit ⟨1, 1⟩ 50000)).apply
        (.Deposit ⟨2, 1⟩ 70000)).accounts
      ≠ (AccountDatabase.new.apply (.Deposit ⟨1, 1⟩ 50000)).accounts := by
  exact ⟨by decide, by decide⟩

/-- Claim C6 (amended): applying a Deposit or Withdrawl record and then any
Deposit or Withdrawl record with the same transaction id and the same
client id (regardless of its amount or which of the two kinds it is) yields
exactly the same store as the first application alone: the second
application is dropped and changes nothing.  (When the second record
carries a different, unseen client id, the replay additionally creates that
client's empty account — see the counterexample.) -/
theorem c6_replay_idempotent (db : AccountDatabase)
    (r r' : TransactionRecord)
    (hr : r.isBalanceKind = true) (hr' : r'.isBalanceKind = true)
    (htx : r'.id.transaction_id = r.id.transaction_id)
    (hc : r'.id.client_id = r.id.client_id) :
    (db.apply r).apply r' = db.apply r := by
  have hsome : ((db.apply r).transactions r.id.transaction_id).isSome
      = true := by
    by_cases hcp : AccountDatabase.can_process_transaction r db.transactions
        db.disputed_transactions = true
    · rw [apply_def_accepted db r hcp]
      show ((AccountDatabase.record_transaction r db.transactions
        db.disputed_transactions).1 r.id.transaction_id).isSome = true
      rw [record_txs_self r _ _ hr]
      rfl
    · have hcp2 : AccountDatabase.can_process_transaction r db.transactions
          db.disputed_transactions = false := by
        simpa using hcp
      rw [apply_def_rejected db r hcp2]
      rw [can_process_balance_iff r db.transactions db.disputed_transactions
        hr] at hcp2
      simpa using hcp2
  have hlook : ∃ a, alistLookup (db.apply r).accounts r.id.client_id
      = some a := by
    by_cases hcp : AccountDatabase.can_process_transaction r db.transactions
        db.disputed_transactions = true
    · rw [apply_def_accepted db r hcp]
      exact ⟨_, alistLookup_insert_self _ _ _⟩
    · have hcp2 : AccountDatabase.can_process_transaction r db.transactions
          db.disputed_transactions = false := by
        simpa using hcp
      rw [apply_def_rejected db r hcp2]
      exact ⟨_, alistLookup_insert_self _ _ _⟩
  obtain ⟨a, ha⟩ := hlook
  have hcp' : AccountDatabase.can_process_transaction r'
      (db.apply r).transactions (db.apply r).disputed_transactions = false := by
    rw [can_process_balance_iff r' _ _ hr', htx, hsome]
    rfl
  rw [apply_def_rejected (db.apply r) r' hcp', hc]
  have hcur : currentAccount (db.apply r) r.id.client_id = a := by
    simp [currentAccount, ha]
  rw [hcur, alistInsert_lookup_eq _ _ _ ha]

/-- Witness for C6 (amended): a deposit for client 1 under transaction
id 1 followed by a withdrawal replaying the same transaction id and client
(with a different amount) leaves the store exactly as after the deposit
alone. -/
theorem c6_witness :
    (AccountDatabase.new.apply (.Deposit ⟨1, 1⟩ 50000)).apply
        (.Withdrawl ⟨1, 1⟩ 990000)
      = AccountDatabase.new.apply (.Deposit ⟨1, 1⟩ 50000) := by
  exact c6_replay_idempotent AccountDatabase.new (.Deposit ⟨1, 1⟩ 50000)
    (.Withdrawl ⟨1, 1⟩ 990000) rfl rfl rfl rfl

/-! ## Claim C9 — the four-record literal scenario -/

/-- The four-record sequence of claim C9 (amounts scaled by 10000: 42, 30
and 32 whole units). -/
def c9_records : List TransactionRecord :=
  [ .Deposit ⟨1, 1⟩ 420000
  , .Withdrawl ⟨1, 2⟩ 300000
  , .Dispute ⟨1, 1⟩
  , .Withdrawl ⟨1, 4⟩ 320000 ]

/-- Claim C9 counterexample: processing
`deposit(1,1,42); withdrawal(1,2,30); dispute(1,1); withdrawal(1,4,32)`
from the empty store does not yield the claimed summary
`1,0.0,32.0,32.0,false` (the dispute can only hold the 12 units still
available, not 32). -/
theorem c9_counterexample :
    (currentAccount (applyAll AccountDatabase.new c9_records) 1).to_summary
      ≠ ({ client_id := 1, available := "0.0", held := "32.0",
           total := "32.0", locked := false } : AccountSummary) := by
  decide

/-- Claim C9 (amended): processing
`deposit(1,1,42); withdrawal(1,2,30); dispute(1,1); withdrawal(1,4,32)`
from the empty store yields the summary `1,0.0,12.0,12.0,false` for
client 1: the dispute is clamped to the 12 units still available, the final
withdrawal is rejected. -/
theorem c9_four_record_scenario :
    (currentAccount (applyAll AccountDatabase.new c9_records) 1).to_summary
      = ({ client_id := 1, available := "0.0", held := "12.0",
           total := "12.0", locked := false } : AccountSummary) := by
  decide

/-! ## Claim C10 — insufficient withdrawals still claim their id -/

theorem record_txs_ne (t : TransactionRecord)
    (txs : Nat → Option TransactionRecord) (d : Nat → Bool) (k : Nat)
    (hk : k ≠ t.id.transaction_id) :
    (AccountDatabase.record_transaction t txs d).1 k = txs k := by
  cases t <;> simp only [TransactionRecord.id] at hk <;>
    simp [AccountDatabase.record_transaction, TransactionRecord.id, hk]

theorem record_disputed_ne (t : TransactionRecord)
    (txs : Nat → Option TransactionRecord) (d : Nat → Bool) (k : Nat)
    (hk : k ≠ t.id.transaction_id) :
    (AccountDatabase.record_transaction t txs d).2 k = d k := by
  cases t <;> simp only [TransactionRecord.id] at hk <;>
    simp [AccountDatabase.record_transaction, TransactionRecord.id, hk]

theorem record_txs_nonbalance (t : TransactionRecord)
    (txs : Nat → Option TransactionRecord) (d : Nat → Bool)
    (h : t.isBalanceKind = false) :
    (AccountDatabase.record_transaction t txs d).1 = txs := by
  cases t <;> simp [TransactionRecord.isBalanceKind] at h <;>
    simp [AccountDatabase.record_transaction]

/-- A transaction id present in the log stays there with the same record:
`record_transaction` never removes log entries, and a fresh
Deposit/Withdrawl record only writes to an id the acceptance predicate has
checked to be absent. -/
theorem apply_transactions_mono (db : AccountDatabase)
    (t : TransactionRecord) (k : Nat) (r : TransactionRecord)
    (h : db.transactions k = some r) :
    (db.apply t).transactions k = some r := by
  by_cases hcp : AccountDatabase.can_process_transaction t db.transactions
      db.disputed_transactions = true
  · rw [apply_def_accepted db t hcp]
    show (AccountDatabase.record_transaction t db.transactions
      db.disputed_transactions).1 k = some r
    by_cases hbal : t.isBalanceKind = true
    · by_cases hk : k = t.id.transaction_id
      · exfalso
        rw [can_process_balance_iff t _ _ hbal] at hcp
        rw [← hk, h] at hcp
        simp at hcp
      · rw [record_txs_ne t _ _ k hk]
        exact h
    · have hbal2 : t.isBalanceKind = false := by simpa using hbal
      rw [record_txs_nonbalance t _ _ hbal2]
      exact h
  · have hcp2 : AccountDatabase.can_process_transaction t db.transactions
        db.disputed_transactions = false := by simpa using hcp
    rw [apply_def_rejected db t hcp2]
    exact h

theorem applyAll_transactions_mono (s : List TransactionRecord)
    (db : AccountDatabase) (k : Nat) (r : TransactionRecord)
    (h : db.transactions k = some r) :
    (applyAll db s).transactions k = some r := by
  induction s generalizing db with
  | nil => exact h
  | cons t ts ih => exact ih _ (apply_transactions_mono db t k r h)

/-- Claim C10: a fresh-id Withdrawal whose amount is not strictly below the
addressed account's available balance is still inserted into the
transaction log while the account is left unchanged; the id stays claimed
through any further stream (so any later Deposit/Withdrawl reusing the id
is rejected), and a later Dispute of the id, while it is undisputed and the
log still holds this withdrawal, is accepted with the withdrawal's full
amount as the effective disputed amount. -/
theorem c10_insufficient_withdrawal_recorded (db : AccountDatabase)
    (id : Id) (amount : Money)
    (hfresh : db.transactions id.transaction_id = none)
    (hinsuf : ¬ amount < (currentAccount db id.client_id).available) :
    (db.apply (.Withdrawl id amount)).transactions id.transaction_id
      = some (.Withdrawl id amount) ∧
    currentAccount (db.apply (.Withdrawl id amount)) id.client_id
      = currentAccount db id.client_id ∧
    (∀ s, (applyAll (db.apply (.Withdrawl id amount)) s).transactions
      id.transaction_id = some (.Withdrawl id amount)) ∧
    (∀ db2 : AccountDatabase, ∀ w : TransactionRecord, ∀ id2 : Id,
      ∀ amt2 : Money,
      db2.transactions id.transaction_id = some w →
      id2.transaction_id = id.transaction_id →
      AccountDatabase.can_process_transaction (.Deposit id2 amt2)
        db2.transactions db2.disputed_transactions = false ∧
      AccountDatabase.can_process_transaction (.Withdrawl id2 amt2)
        db2.transactions db2.disputed_transactions = false) ∧
    (∀ db2 : AccountDatabase,
      db2.transactions id.transaction_id = some (.Withdrawl id amount) →
      db2.disputed_transactions id.transaction_id = false →
      AccountDatabase.can_process_transaction (.Dispute id)
        db2.transactions db2.disputed_transactions = true ∧
      AccountDatabase.get_disputed_amount (.Dispute id) db2.transactions
        = amount) := by
  have hcp : AccountDatabase.can_process_transaction (.Withdrawl id amount)
      db.transactions db.disputed_transactions = true := by
    rw [can_process_balance_iff (.Withdrawl id amount) _ _ rfl]
    show (!(db.transactions id.transaction_id).isSome) = true
    rw [hfresh]
    rfl
  have hlog : (db.apply (.Withdrawl id amount)).transactions
      id.transaction_id = some (.Withdrawl id amount) := by
    rw [apply_def_accepted db _ hcp]
    show (AccountDatabase.record_transaction (.Withdrawl id amount)
      db.transactions db.disputed_transactions).1 id.transaction_id
        = some (.Withdrawl id amount)
    exact record_txs_self (.Withdrawl id amount) db.transactions
      db.disputed_transactions rfl
  refine ⟨hlog, ?_, ?_, ?_, ?_⟩
  · have hacc : currentAccount (db.apply (.Withdrawl id amount)) id.client_id
        = (currentAccount db id.client_id).apply (.Withdrawl id amount)
          (AccountDatabase.get_disputed_amount (.Withdrawl id amount)
            (AccountDatabase.record_transaction (.Withdrawl id amount)
              db.transactions db.disputed_transactions).1) := by
      rw [apply_def_accepted db _ hcp]
      simp [currentAccount, TransactionRecord.id, alistLookup_insert_self]
    rw [hacc]
    simp [Account.apply, if_neg hinsuf]
  · intro s
    exact applyAll_transactions_mono s _ _ _ hlog
  · intro db2 w id2 amt2 hw htx2
    constructor
    · rw [can_process_balance_iff (.Deposit id2 amt2) _ _ rfl]
      show (!(db2.transactions id2.transaction_id).isSome) = false
      rw [htx2, hw]
      rfl
    · rw [can_process_balance_iff (.Withdrawl id2 amt2) _ _ rfl]
      show (!(db2.transactions id2.transaction_id).isSome) = false
      rw [htx2, hw]
      rfl
  · intro db2 hw hnd
    constructor
    · simp [AccountDatabase.can_process_transaction, TransactionRecord.id,
        hw, hnd]
    · simp [AccountDatabase.get_disputed_amount, hw, TransactionRecord.amount]

/-- Witness for C10: on the empty store, a withdrawal of 5 units by
client 1 under transaction id 7 (insufficient: available is 0) is logged,
the account stays at zero, and a dispute of id 7 is then accepted with
effective amount 5. -/
theorem c10_witness :
    (AccountDatabase.new.apply (.Withdrawl ⟨1, 7⟩ 50000)).transactions 7
      = some (.Withdrawl ⟨1, 7⟩ 50000) ∧
    currentAccount (AccountDatabase.new.apply (.Withdrawl ⟨1, 7⟩ 50000)) 1
      = currentAccount AccountDatabase.new 1 ∧
    AccountDatabase.can_process_transaction (.Dispute ⟨1, 7⟩)
      (AccountDatabase.new.apply (.Withdrawl ⟨1, 7⟩ 50000)).transactions
      (AccountDatabase.new.apply (.Withdrawl ⟨1, 7⟩ 50000)).disputed_transactions
        = true ∧
    AccountDatabase.get_disputed_amount (.Dispute ⟨1, 7⟩)
      (AccountDatabase.new.apply (.Withdrawl ⟨1, 7⟩ 50000)).transactions
        = 50000 := by
  obtain ⟨h1, h2, h3, h4, h5⟩ := c10_insufficient_withdrawal_recorded
    AccountDatabase.new ⟨1, 7⟩ 50000 rfl (by decide)
  have h6 := h5 (AccountDatabase.new.apply (.Withdrawl ⟨1, 7⟩ 50000))
    (by decide) (by decide)
  exact ⟨h1, h2, h6.1, h6.2⟩

/-! ## Claim C8 — money parsing -/

/-- Claim C8 counterexample: the text `0.00001` has five fractional digits
yet parses successfully (to the scaled value 1, i.e. 0.0001 units): the
decimal part is validated by numeric value (≤ 9999), not by digit count, so
"more than 4 fractional digits" does not imply an error. -/
theorem c8_counterexample :
    Money.from_str ['0', '.', '0', '0', '0', '0', '1'] = .ok 1 := by
  rfl

/-- Claim C8 (amended): trimmed-empty input is `Malformed`; more than one
decimal point is `Malformed`; a whole part that does not parse as a `u64`
is `Malformed`, one that parses but exceeds `u64::MAX / 10000` is
`ExceededPrecision`, and otherwise the whole part contributes its value
scaled by 10000; with one decimal point, a fractional part that does not
parse as a `u64` is `Malformed`, one whose value exceeds 9999 is
`ExceededPrecision` (regardless of digit count), and otherwise its value is
added unscaled. -/
theorem c8_money_parse_classification (s : List Char) :
    (trimChars s = [] → Money.from_str s = .error .Malformed) ∧
    (3 ≤ (splitDot (trimChars s)).length →
      Money.from_str s = .error .Malformed) ∧
    (∀ p0, splitDot (trimChars s) = [p0] →
      (parseU64 p0 = none → Money.from_str s = .error .Malformed) ∧
      (∀ w, parseU64 p0 = some w → u64Max / 10000 < w →
        Money.from_str s = .error .ExceededPrecision) ∧
      (∀ w, parseU64 p0 = some w → w ≤ u64Max / 10000 →
        Money.from_str s = .ok (w * 10000))) ∧
    (∀ p0 p1, splitDot (trimChars s) = [p0, p1] →
      (parseU64 p0 = none → Money.from_str s = .error .Malformed) ∧
      (∀ w, parseU64 p0 = some w → u64Max / 10000 < w →
        Money.from_str s = .error .ExceededPrecision) ∧
      (∀ w, parseU64 p0 = some w → w ≤ u64Max / 10000 →
        (parseU64 p1 = none → Money.from_str s = .error .Malformed) ∧
        (∀ d, parseU64 p1 = some d → 9999 < d →
          Money.from_str s = .error .ExceededPrecision) ∧
        (∀ d, parseU64 p1 = some d → d ≤ 9999 →
          Money.from_str s = .ok (w * 10000 + d)))) := by
  by_cases h0 : trimChars s = []
  · have he : Money.from_str s = .error .Malformed := by
      simp [Money.from_str, h0]
    refine ⟨fun _ => he, fun _ => he, ?_, ?_⟩
    · intro p0 hsp
      rw [h0] at hsp
      have hp0 : p0 = [] := by
        have : [([] : List Char)] = [p0] := by
          rw [← hsp]
          rfl
        simpa using this.symm
      subst hp0
      refine ⟨fun _ => he, ?_, ?_⟩
      · intro w hw
        simp [parseU64] at hw
      · intro w hw
        simp [parseU64] at hw
    · intro p0 p1 hsp
      rw [h0] at hsp
      have : [([] : List Char)] = [p0, p1] := by
        rw [← hsp]
        rfl
      simp at this
  · have hlen : ¬ (trimChars s).length = 0 := by
      simpa [List.length_eq_zero] using h0
    refine ⟨fun h => absurd h h0, ?_, ?_, ?_⟩
    · intro h3
      rcases hsp : splitDot (trimChars s) with _ | ⟨p0, _ | ⟨p1, _ | ⟨p2, tl⟩⟩⟩ <;>
        rw [hsp] at h3
      · simp at h3
      · simp at h3
      · simp at h3
      · simp [Money.from_str, hlen, hsp]
    · intro p0 hsp
      refine ⟨?_, ?_, ?_⟩
      · intro hw
        simp [Money.from_str, hlen, hsp, Money.parse_whole_part, hw]
      · intro w hw hgt
        simp [Money.from_str, hlen, hsp, Money.parse_whole_part, hw, hgt]
      · intro w hw hle
        simp [Money.from_str, hlen, hsp, Money.parse_whole_part, hw,
          Nat.not_lt_of_le hle, Bind.bind, Except.bind, Pure.pure, Except.pure]
    · intro p0 p1 hsp
      refine ⟨?_, ?_, ?_⟩
      · intro hw
        simp [Money.from_str, hlen, hsp, Money.parse_whole_part, hw,
          Bind.bind, Except.bind]
      · intro w hw hgt
        simp [Money.from_str, hlen, hsp, Money.parse_whole_part, hw, hgt,
          Bind.bind, Except.bind]
      · intro w hw hle
        refine ⟨?_, ?_, ?_⟩
        · intro hd
          simp [Money.from_str, hlen, hsp, Money.parse_whole_part, hw,
            Nat.not_lt_of_le hle, Money.parse_decimal_part, hd,
            Bind.bind, Except.bind]
        · intro d hd hdgt
          simp [Money.from_str, hlen, hsp, Money.parse_whole_part, hw,
            Nat.not_lt_of_le hle, Money.parse_decimal_part, hd, hdgt,
            Bind.bind, Except.bind]
        · intro d hd hdle
          simp [Money.from_str, hlen, hsp, Money.parse_whole_part, hw,
            Nat.not_lt_of_le hle, Money.parse_decimal_part, hd,
            Nat.not_lt_of_le hdle, Bind.bind, Except.bind, Pure.pure,
            Except.pure]

/-- Witness for C8 (amended): concrete classifications — two decimal
points are Malformed, a non-numeric whole part is Malformed, a fractional
value above 9999 is ExceededPrecision, a whitespace-only string is
Malformed, and `3.14` parses to the scaled value 30014 (whole scaled by
10000, fraction added unscaled). -/
theorem c8_witness :
    Money.from_str ['1', '.', '2', '.', '3'] = .error .Malformed ∧
    Money.from_str ['a'] = .error .Malformed ∧
    Money.from_str ['0', '.', '1', '2', '3', '4', '5']
      = .error .ExceededPrecision ∧
    Money.from_str [' '] = .error .Malformed ∧
    Money.from_str ['3', '.', '1', '4'] = .ok 30014 := by
  refine ⟨?_, ?_, ?_, ?_, ?_⟩
  · exact (c8_money_parse_classification ['1', '.', '2', '.', '3']).2.1
      (by decide)
  · exact ((c8_money_parse_classification ['a']).2.2.1 ['a'] (by decide)).1
      (by decide)
  · exact (((c8_money_parse_classification
      ['0', '.', '1', '2', '3', '4', '5']).2.2.2 ['0']
      ['1', '2', '3', '4', '5'] (by decide)).2.2 0 (by decide)
      (by decide)).2.1 12345 (by decide) (by decide)
  · exact (c8_money_parse_classification [' ']).1 (by decide)
  · exact (((c8_money_parse_classification ['3', '.', '1', '4']).2.2.2
      ['3'] ['1', '4'] (by decide)).2.2 3 (by decide) (by decide)).2.2 14
      (by decide) (by decide)

/-! ## Claim C5 — conservation of `available + held` without chargebacks -/

/-- The spec's "accepted deposit": a Deposit passing the acceptance
predicate at the moment it is processed; contribution to the deposit sum. -/
def depositContribution (db : AccountDatabase) (t : TransactionRecord) : Nat :=
  match t with
  | .Deposit id amount =>
    if AccountDatabase.can_process_transaction (.Deposit id amount)
        db.transactions db.disputed_transactions then amount else 0
  | _ => 0

/-- The spec's "accepted withdrawal" (its §7 counts an insufficient-funds
withdrawal among the rejections): a Withdrawl passing the acceptance
predicate whose amount is strictly below the addressed account's available
balance at the moment it is processed; contribution to the withdrawal
sum. -/
def withdrawalContribution (db : AccountDatabase) (t : TransactionRecord) :
    Nat :=
  match t with
  | .Withdrawl id amount =>
    if AccountDatabase.can_process_transaction (.Withdrawl id amount)
          db.transactions db.disputed_transactions
        ∧ amount < (currentAccount db id.client_id).available
      then amount else 0
  | _ => 0

/-- Sum of accepted deposit amounts along a run. -/
def acceptedDepositSum : AccountDatabase → List TransactionRecord → Nat
  | _, [] => 0
  | db, t :: ts => depositContribution db t + acceptedDepositSum (db.apply t) ts

/-- Sum of accepted withdrawal amounts along a run. -/
def appliedWithdrawalSum : AccountDatabase → List TransactionRecord → Nat
  | _, [] => 0
  | db, t :: ts =>
    withdrawalContribution db t + appliedWithdrawalSum (db.apply t) ts

theorem fundsSum_insert_current (db : AccountDatabase) (c : Nat)
    (a' : Account) :
    fundsSum (alistInsert db.accounts c a')
        + ((currentAccount db c).available + (currentAccount db c).held)
      = fundsSum db.accounts + (a'.available + a'.held) := by
  rcases hl : alistLookup db.accounts c with _ | b
  · have hcur : currentAccount db c = Account.create c := by
      simp [currentAccount, hl]
    rw [hcur, fundsSum_insert_none db.accounts c a' hl]
    simp [Account.create, Money.zero]
  · have hcur : currentAccount db c = b := by
      simp [currentAccount, hl]
    rw [hcur]
    exact fundsSum_insert_some db.accounts c a' b hl

theorem nat_step_dep (s2 s av h amt : Nat)
    (e : s2 + (av + h) = s + (av + amt + h)) : s2 + 0 = s + amt := by omega

theorem nat_step_wd (s2 s av h amt : Nat) (hlt : amt < av)
    (e : s2 + (av + h) = s + (av - amt + h)) : s2 + amt = s + 0 := by omega

theorem nat_step_same (s2 s f1 : Nat) (e : s2 + f1 = s + f1) :
    s2 + 0 = s + 0 := by omega

theorem nat_step_disp (s2 s av h m : Nat) (hm : m ≤ av)
    (e : s2 + (av + h) = s + (av - m + (h + m))) : s2 + 0 = s + 0 := by omega

theorem nat_step_res (s2 s av h m : Nat) (hm : m ≤ h)
    (e : s2 + (av + h) = s + (av + m + (h - m))) : s2 + 0 = s + 0 := by omega

/-- One step of conservation: for any non-Chargeback record, the total
funds change by the deposit contribution minus the withdrawal
contribution. -/
theorem totalFunds_apply_step (db : AccountDatabase) (t : TransactionRecord)
    (hnc : t.isChargeback = false) :
    totalFunds (db.apply t) + withdrawalContribution db t
      = totalFunds db + depositContribution db t := by
  by_cases hcp : AccountDatabase.can_process_transaction t db.transactions
      db.disputed_transactions = true
  · cases t with
    | Deposit id amount =>
      have hdc : depositContribution db (.Deposit id amount) = amount := by
        simp [depositContribution, hcp]
      have hwc : withdrawalContribution db (.Deposit id amount) = 0 := rfl
      rw [hdc, hwc, apply_def_accepted db _ hcp]
      have ea : (currentAccount db id.client_id).apply (.Deposit id amount)
          (AccountDatabase.get_disputed_amount (.Deposit id amount)
            (AccountDatabase.record_transaction (.Deposit id amount)
              db.transactions db.disputed_transactions).1)
          = (⟨(currentAccount db id.client_id).client_id,
              (currentAccount db id.client_id).available + amount,
              (currentAccount db id.client_id).held,
              (currentAccount db id.client_id).status⟩ : Account) := rfl
      simp only [totalFunds, TransactionRecord.id]
      rw [ea]
      exact nat_step_dep _ _ _ _ _ (fundsSum_insert_current db id.client_id _)
    | Withdrawl id amount =>
      have hdc : depositContribution db (.Withdrawl id amount) = 0 := rfl
      rw [hdc, apply_def_accepted db _ hcp]
      by_cases hlt : amount < (currentAccount db id.client_id).available
      · have hwc : withdrawalContribution db (.Withdrawl id amount)
            = amount := by
          simp [withdrawalContribution, hcp, hlt]
        rw [hwc]
        have ea : (currentAccount db id.client_id).apply
            (.Withdrawl id amount)
            (AccountDatabase.get_disputed_amount (.Withdrawl id amount)
              (AccountDatabase.record_transaction (.Withdrawl id amount)
                db.transactions db.disputed_transactions).1)
            = (⟨(currentAccount db id.client_id).client_id,
                (currentAccount db id.client_id).available - amount,
                (currentAccount db id.client_id).held,
                (currentAccount db id.client_id).status⟩ : Account) := by
          simp [Account.apply, if_pos hlt]
        simp only [totalFunds, TransactionRecord.id]
        rw [ea]
        exact nat_step_wd _ _ _ _ _ hlt
          (fundsSum_insert_current db id.client_id _)
      · have hwc : withdrawalContribution db (.Withdrawl id amount) = 0 := by
          simp [withdrawalContribution, hlt]
        rw [hwc]
        have ea : (currentAccount db id.client_id).apply
            (.Withdrawl id amount)
            (AccountDatabase.get_disputed_amount (.Withdrawl id amount)
              (AccountDatabase.record_transaction (.Withdrawl id amount)
                db.transactions db.disputed_transactions).1)
            = currentAccount db id.client_id := by
          simp [Account.apply, if_neg hlt]
        simp only [totalFunds, TransactionRecord.id]
        rw [ea]
        exact nat_step_same _ _ _ (fundsSum_insert_current db id.client_id _)
    | Dispute id =>
      have hdc : depositContribution db (.Dispute id) = 0 := rfl
      have hwc : withdrawalContribution db (.Dispute id) = 0 := rfl
      rw [hdc, hwc, apply_def_accepted db _ hcp]
      have ea : (currentAccount db id.client_id).apply (.Dispute id)
          (AccountDatabase.get_disputed_amount (.Dispute id)
            (AccountDatabase.record_transaction (.Dispute id)
              db.transactions db.disputed_transactions).1)
          = (⟨(currentAccount db id.client_id).client_id,
              (currentAccount db id.client_id).available
                - min (currentAccount db id.client_id).available
                  (AccountDatabase.get_disputed_amount (.Dispute id)
                    (AccountDatabase.record_transaction (.Dispute id)
                      db.transactions db.disputed_transactions).1),
              (currentAccount db id.client_id).held
                + min (currentAccount db id.client_id).available
                  (AccountDatabase.get_disputed_amount (.Dispute id)
                    (AccountDatabase.record_transaction (.Dispute id)
                      db.transactions db.disputed_transactions).1),
              (currentAccount db id.client_id).status⟩ : Account) := rfl
      simp only [totalFunds, TransactionRecord.id]
      rw [ea]
      exact nat_step_disp _ _ _ _ _ (Nat.min_le_left _ _)
        (fundsSum_insert_current db id.client_id _)
    | Resolve id =>
      have hdc : depositContribution db (.Resolve id) = 0 := rfl
      have hwc : withdrawalContribution db (.Resolve id) = 0 := rfl
      rw [hdc, hwc, apply_def_accepted db _ hcp]
      have ea : (currentAccount db id.client_id).apply (.Resolve id)
          (AccountDatabase.get_disputed_amount (.Resolve id)
            (AccountDatabase.record_transaction (.Resolve id)
              db.transactions db.disputed_transactions).1)
          = (⟨(currentAccount db id.client_id).client_id,
              (currentAccount db id.client_id).available
                + min (currentAccount db id.client_id).held
                  (AccountDatabase.get_disputed_amount (.Resolve id)
                    (AccountDatabase.record_transaction (.Resolve id)
                      db.transactions db.disputed_transactions).1),
              (currentAccount db id.client_id).held
                - min (currentAccount db id.client_id).held
                  (AccountDatabase.get_disputed_amount (.Resolve id)
                    (AccountDatabase.record_transaction (.Resolve id)
                      db.transactions db.disputed_transactions).1),
              (currentAccount db id.client_id).status⟩ : Account) := rfl
      simp only [totalFunds, TransactionRecord.id]
      rw [ea]
      exact nat_step_res _ _ _ _ _ (Nat.min_le_left _ _)
        (fundsSum_insert_current db id.client_id _)
    | Chargeback id => simp [TransactionRecord.isChargeback] at hnc
  · have hcp2 : AccountDatabase.can_process_transaction t db.transactions
        db.disputed_transactions = false := by simpa using hcp
    have hdc : depositContribution db t = 0 := by
      cases t <;> simp [depositContribution, hcp2]
    have hwc : withdrawalContribution db t = 0 := by
      cases t <;> simp [withdrawalContribution, hcp2]
    rw [hdc, hwc, apply_def_rejected db t hcp2]
    show fundsSum (alistInsert db.accounts t.id.client_id
      (currentAccount db t.id.client_id)) + 0 = fundsSum db.accounts + 0
    exact nat_step_same _ _ _
      (fundsSum_insert_current db t.id.client_id _)

theorem applyAll_totalFunds (ts : List TransactionRecord)
    (db : AccountDatabase) (h : ∀ t ∈ ts, t.isChargeback = false) :
    totalFunds (applyAll db ts) + appliedWithdrawalSum db ts
      = totalFunds db + acceptedDepositSum db ts := by
  induction ts generalizing db with
  | nil => rfl
  | cons t ts ih =>
    have step := totalFunds_apply_step db t (h t (List.mem_cons_self t ts))
    have ihh := ih (db.apply t) (fun u hu => h u (List.mem_cons_of_mem t hu))
    show totalFunds (applyAll (db.apply t) ts)
        + (withdrawalContribution db t + appliedWithdrawalSum (db.apply t) ts)
      = totalFunds db
        + (depositContribution db t + acceptedDepositSum (db.apply t) ts)
    omega

/-- Claim C5: for every input sequence without a Chargeback, the final
total of `available + held` over all accounts equals the sum of accepted
deposit amounts minus the sum of accepted withdrawal amounts, exactly (the
withdrawal sum never exceeds the deposit sum). -/
theorem c5_total_conservation (ts : List TransactionRecord)
    (h : ∀ t ∈ ts, t.isChargeback = false) :
    appliedWithdrawalSum AccountDatabase.new ts
      ≤ acceptedDepositSum AccountDatabase.new ts ∧
    totalFunds (applyAll AccountDatabase.new ts)
      = acceptedDepositSum AccountDatabase.new ts
        - appliedWithdrawalSum AccountDatabase.new ts := by
  have key := applyAll_totalFunds ts AccountDatabase.new h
  have h0 : totalFunds AccountDatabase.new = 0 := rfl
  omega

/-- Witness for C5: a deposit of 5 units, a withdrawal of 3 units and a
dispute for client 1 conserve funds: total = 5 − 3 = 2 units. -/
theorem c5_witness :
    appliedWithdrawalSum AccountDatabase.new
        [.Deposit ⟨1, 1⟩ 50000, .Withdrawl ⟨1, 2⟩ 30000, .Dispute ⟨1, 1⟩]
      ≤ acceptedDepositSum AccountDatabase.new
        [.Deposit ⟨1, 1⟩ 50000, .Withdrawl ⟨1, 2⟩ 30000, .Dispute ⟨1, 1⟩] ∧
    totalFunds (applyAll AccountDatabase.new
        [.Deposit ⟨1, 1⟩ 50000, .Withdrawl ⟨1, 2⟩ 30000, .Dispute ⟨1, 1⟩])
      = acceptedDepositSum AccountDatabase.new
          [.Deposit ⟨1, 1⟩ 50000, .Withdrawl ⟨1, 2⟩ 30000, .Dispute ⟨1, 1⟩]
        - appliedWithdrawalSum AccountDatabase.new
          [.Deposit ⟨1, 1⟩ 50000, .Withdrawl ⟨1, 2⟩ 30000, .Dispute ⟨1, 1⟩] := by
  exact c5_total_conservation
    [.Deposit ⟨1, 1⟩ 50000, .Withdrawl ⟨1, 2⟩ 30000, .Dispute ⟨1, 1⟩]
    (by decide)

/-! ## Claim C7 — cross-client noninterference -/

theorem can_process_congr (t : TransactionRecord)
    (tx1 tx2 : Nat → Option TransactionRecord) (d1 d2 : Nat → Bool)
    (htx : tx1 t.id.transaction_id = tx2 t.id.transaction_id)
    (hd : d1 t.id.transaction_id = d2 t.id.transaction_id) :
    AccountDatabase.can_process_transaction t tx1 d1
      = AccountDatabase.can_process_transaction t tx2 d2 := by
  cases t <;>
    simp only [TransactionRecord.id] at htx hd <;>
    simp only [AccountDatabase.can_process_transaction,
      TransactionRecord.id] <;>
    rw [htx] <;>
    rw [hd]

theorem get_disputed_congr (t : TransactionRecord)
    (tx1 tx2 : Nat → Option TransactionRecord)
    (htx : tx1 t.id.transaction_id = tx2 t.id.transaction_id) :
    AccountDatabase.get_disputed_amount t tx1
      = AccountDatabase.get_disputed_amount t tx2 := by
  cases t <;>
    simp only [TransactionRecord.id] at htx <;>
    simp only [AccountDatabase.get_disputed_amount, TransactionRecord.id] <;>
    first
    | rfl
    | rw [htx]

theorem record_txs_congr_at (t : TransactionRecord)
    (tx1 tx2 : Nat → Option TransactionRecord) (d1 d2 : Nat → Bool) (k : Nat)
    (htx : tx1 k = tx2 k) :
    (AccountDatabase.record_transaction t tx1 d1).1 k
      = (AccountDatabase.record_transaction t tx2 d2).1 k := by
  cases t with
  | Deposit id amount =>
    simp only [AccountDatabase.record_transaction, TransactionRecord.id]
    by_cases hk : k = id.transaction_id
    · simp [hk]
    · simp [hk, htx]
  | Withdrawl id amount =>
    simp only [AccountDatabase.record_transaction, TransactionRecord.id]
    by_cases hk : k = id.transaction_id
    · simp [hk]
    · simp [hk, htx]
  | Dispute id => exact htx
  | Resolve id => exact htx
  | Chargeback id => exact htx

theorem record_disputed_congr_at (t : TransactionRecord)
    (tx1 tx2 : Nat → Option TransactionRecord) (d1 d2 : Nat → Bool) (k : Nat)
    (hd : d1 k = d2 k) :
    (AccountDatabase.record_transaction t tx1 d1).2 k
      = (AccountDatabase.record_transaction t tx2 d2).2 k := by
  cases t with
  | Deposit id amount => exact hd
  | Withdrawl id amount => exact hd
  | Dispute id =>
    simp only [AccountDatabase.record_transaction, TransactionRecord.id]
    by_cases hk : k = id.transaction_id
    · simp [hk]
    · simp [hk, hd]
  | Resolve id =>
    simp only [AccountDatabase.record_transaction, TransactionRecord.id]
    by_cases hk : k = id.transaction_id
    · simp [hk]
    · simp [hk, hd]
  | Chargeback id =>
    simp only [AccountDatabase.record_transaction, TransactionRecord.id]
    by_cases hk : k = id.transaction_id
    · simp [hk]
    · simp [hk, hd]

/-- Invariant transfer when a record addressed to a client other than `A`
(and whose transaction id is outside the `A`-owned set `P`) is applied on
both sides. -/
theorem apply_invariant_step (A : Nat) (P : Nat → Bool)
    (db1 db2 : AccountDatabase) (t : TransactionRecord)
    (ht : t.id.client_id ≠ A) (hP : P t.id.transaction_id = false)
    (hacc : ∀ c, c ≠ A →
      alistLookup db1.accounts c = alistLookup db2.accounts c)
    (htx : ∀ k, P k = false → db1.transactions k = db2.transactions k)
    (hd : ∀ k, P k = false →
      db1.disputed_transactions k = db2.disputed_transactions k) :
    (∀ c, c ≠ A →
      alistLookup (db1.apply t).accounts c
        = alistLookup (db2.apply t).accounts c) ∧
    (∀ k, P k = false →
      (db1.apply t).transactions k = (db2.apply t).transactions k) ∧
    (∀ k, P k = false →
      (db1.apply t).disputed_transactions k
        = (db2.apply t).disputed_transactions k) := by
  have hcpeq : AccountDatabase.can_process_transaction t db1.transactions
        db1.disputed_transactions
      = AccountDatabase.can_process_transaction t db2.transactions
        db2.disputed_transactions :=
    can_process_congr t _ _ _ _ (htx _ hP) (hd _ hP)
  have hcur : currentAccount db1 t.id.client_id
      = currentAccount db2 t.id.client_id := by
    unfold currentAccount
    rw [hacc _ ht]
  by_cases hcp : AccountDatabase.can_process_transaction t db1.transactions
      db1.disputed_transactions = true
  · have hcp2 : AccountDatabase.can_process_transaction t db2.transactions
        db2.disputed_transactions = true := by
      rw [← hcpeq]
      exact hcp
    have hdeq : AccountDatabase.get_disputed_amount t
          (AccountDatabase.record_transaction t db1.transactions
            db1.disputed_transactions).1
        = AccountDatabase.get_disputed_amount t
          (AccountDatabase.record_transaction t db2.transactions
            db2.disputed_transactions).1 :=
      get_disputed_congr t _ _ (record_txs_congr_at t _ _ _ _ _ (htx _ hP))
    rw [apply_def_accepted db1 t hcp, apply_def_accepted db2 t hcp2]
    refine ⟨?_, ?_, ?_⟩
    · intro c hc
      show alistLookup (alistInsert db1.accounts t.id.client_id
          ((currentAccount db1 t.id.client_id).apply t _)) c
        = alistLookup (alistInsert db2.accounts t.id.client_id
          ((currentAccount db2 t.id.client_id).apply t _)) c
      by_cases hcc : c = t.id.client_id
      · subst hcc
        rw [alistLookup_insert_self, alistLookup_insert_self, hcur, hdeq]
      · rw [alistLookup_insert_ne _ _ _ _ hcc,
          alistLookup_insert_ne _ _ _ _ hcc]
        exact hacc c hc
    · intro k hk
      exact record_txs_congr_at t _ _ _ _ k (htx k hk)
    · intro k hk
      exact record_disputed_congr_at t _ _ _ _ k (hd k hk)
  · have hcpf : AccountDatabase.can_process_transaction t db1.transactions
        db1.disputed_transactions = false := by simpa using hcp
    have hcpf2 : AccountDatabase.can_process_transaction t db2.transactions
        db2.disputed_transactions = false := by
      rw [← hcpeq]
      exact hcpf
    rw [apply_def_rejected db1 t hcpf, apply_def_rejected db2 t hcpf2]
    refine ⟨?_, ?_, ?_⟩
    · intro c hc
      show alistLookup (alistInsert db1.accounts t.id.client_id
          (currentAccount db1 t.id.client_id)) c
        = alistLookup (alistInsert db2.accounts t.id.client_id
          (currentAccount db2 t.id.client_id)) c
      by_cases hcc : c = t.id.client_id
      · subst hcc
        rw [alistLookup_insert_self, alistLookup_insert_self, hcur]
      · rw [alistLookup_insert_ne _ _ _ _ hcc,
          alistLookup_insert_ne _ _ _ _ hcc]
        exact hacc c hc
    · intro k hk
      exact htx k hk
    · intro k hk
      exact hd k hk

/-- Invariant transfer when a record addressed to client `A` (whose
transaction id is in the `A`-owned set `P`) is applied on the left side
only. -/
theorem apply_dropped_step (A : Nat) (P : Nat → Bool)
    (db1 db2 : AccountDatabase) (t : TransactionRecord)
    (ht : t.id.client_id = A) (hP : P t.id.transaction_id = true)
    (hacc : ∀ c, c ≠ A →
      alistLookup db1.accounts c = alistLookup db2.accounts c)
    (htx : ∀ k, P k = false → db1.transactions k = db2.transactions k)
    (hd : ∀ k, P k = false →
      db1.disputed_transactions k = db2.disputed_transactions k) :
    (∀ c, c ≠ A →
      alistLookup (db1.apply t).accounts c = alistLookup db2.accounts c) ∧
    (∀ k, P k = false → (db1.apply t).transactions k = db2.transactions k) ∧
    (∀ k, P k = false →
      (db1.apply t).disputed_transactions k
        = db2.disputed_transactions k) := by
  refine ⟨?_, ?_, ?_⟩
  · intro c hc
    have hne : c ≠ t.id.client_id := by
      rw [ht]
      exact hc
    by_cases hcp : AccountDatabase.can_process_transaction t db1.transactions
        db1.disputed_transactions = true
    · rw [apply_def_accepted db1 t hcp]
      show alistLookup (alistInsert db1.accounts t.id.client_id _) c
        = alistLookup db2.accounts c
      rw [alistLookup_insert_ne _ _ _ _ hne]
      exact hacc c hc
    · rw [apply_def_rejected db1 t (by simpa using hcp)]
      show alistLookup (alistInsert db1.accounts t.id.client_id _) c
        = alistLookup db2.accounts c
      rw [alistLookup_insert_ne _ _ _ _ hne]
      exact hacc c hc
  · intro k hk
    have hkne : k ≠ t.id.transaction_id := by
      intro e
      rw [e, hP] at hk
      simp at hk
    by_cases hcp : AccountDatabase.can_process_transaction t db1.transactions
        db1.disputed_transactions = true
    · rw [apply_def_accepted db1 t hcp]
      show (AccountDatabase.record_transaction t db1.transactions
        db1.disputed_transactions).1 k = db2.transactions k
      rw [record_txs_ne t _ _ k hkne]
      exact htx k hk
    · rw [apply_def_rejected db1 t (by simpa using hcp)]
      exact htx k hk
  · intro k hk
    have hkne : k ≠ t.id.transaction_id := by
      intro e
      rw [e, hP] at hk
      simp at hk
    by_cases hcp : AccountDatabase.can_process_transaction t db1.transactions
        db1.disputed_transactions = true
    · rw [apply_def_accepted db1 t hcp]
      show (AccountDatabase.record_transaction t db1.transactions
        db1.disputed_transactions).2 k = db2.disputed_transactions k
      rw [record_disputed_ne t _ _ k hkne]
      exact hd k hk
    · rw [apply_def_rejected db1 t (by simpa using hcp)]
      exact hd k hk

/-- Core noninterference induction: under pointwise agreement outside
client `A` and outside `A`'s transaction-id set `P`, processing the full
stream on the left and the `A`-filtered stream on the right keeps every
other client's account entry equal. -/
theorem noninterference_aux (A : Nat) (P : Nat → Bool)
    (ts : List TransactionRecord) :
    ∀ db1 db2 : AccountDatabase,
    (∀ c, c ≠ A → alistLookup db1.accounts c = alistLookup db2.accounts c) →
    (∀ k, P k = false → db1.transactions k = db2.transactions k) →
    (∀ k, P k = false →
      db1.disputed_transactions k = db2.disputed_transactions k) →
    (∀ t ∈ ts, t.id.client_id = A → P t.id.transaction_id = true) →
    (∀ t ∈ ts, t.id.client_id ≠ A → P t.id.transaction_id = false) →
    ∀ c, c ≠ A →
      alistLookup (applyAll db1 ts).accounts c
        = alistLookup (applyAll db2
            (ts.filter (fun u => u.id.client_id != A))).accounts c := by
  induction ts with
  | nil =>
    intro db1 db2 hacc _ _ _ _ c hc
    exact hacc c hc
  | cons t ts ih =>
    intro db1 db2 hacc htx hd hA hB c hc
    by_cases hta : t.id.client_id = A
    · have hfilter : (t :: ts).filter (fun u => u.id.client_id != A)
          = ts.filter (fun u => u.id.client_id != A) := by
        simp [List.filter_cons, hta]
      rw [hfilter]
      have hstep := apply_dropped_step A P db1 db2 t hta
        (hA t (List.mem_cons_self t ts) hta) hacc htx hd
      show alistLookup (applyAll (db1.apply t) ts).accounts c = _
      exact ih (db1.apply t) db2 hstep.1 hstep.2.1 hstep.2.2
        (fun u hu => hA u (List.mem_cons_of_mem t hu))
        (fun u hu => hB u (List.mem_cons_of_mem t hu)) c hc
    · have hfilter : (t :: ts).filter (fun u => u.id.client_id != A)
          = t :: ts.filter (fun u => u.id.client_id != A) := by
        simp [List.filter_cons, hta]
      rw [hfilter]
      have hstep := apply_invariant_step A P db1 db2 t hta
        (hB t (List.mem_cons_self t ts) hta) hacc htx hd
      show alistLookup (applyAll (db1.apply t) ts).accounts c
        = alistLookup (applyAll (db2.apply t)
            (ts.filter (fun u => u.id.client_id != A))).accounts c
      exact ih (db1.apply t) (db2.apply t) hstep.1 hstep.2.1 hstep.2.2
        (fun u hu => hA u (List.mem_cons_of_mem t hu))
        (fun u hu => hB u (List.mem_cons_of_mem t hu)) c hc

/-- Claim C7 counterexample: client 2's deposit claims transaction id 1, so
client 1's later withdrawal reusing id 1 is rejected when client 2's
records are present (available stays 10) but applied when they are absent
(available becomes 5): removing client 2's records changes client 1's final
balance. -/
theorem c7_counterexample :
    (currentAccount (applyAll AccountDatabase.new
        [.Deposit ⟨2, 1⟩ 100000, .Deposit ⟨1, 5⟩ 100000,
         .Withdrawl ⟨1, 1⟩ 50000]) 1).available
    ≠ (currentAccount (applyAll AccountDatabase.new
        (([.Deposit ⟨2, 1⟩ 100000, .Deposit ⟨1, 5⟩ 100000,
           .Withdrawl ⟨1, 1⟩ 50000] : List TransactionRecord).filter
          (fun u => u.id.client_id != 2))) 1).available := by
  decide

/-- Claim C7 (amended): for distinct clients A and B, if no transaction id
used by a record addressed to A is also used by a record addressed to any
other client, then removing A's records from the stream leaves B's final
available and held balances unchanged.  (Without the disjointness proviso
the claim fails, because the transaction-id namespace is global — see the
counterexample.) -/
theorem c7_client_noninterference (ts : List TransactionRecord) (A B : Nat)
    (hAB : B ≠ A)
    (hdisj : ∀ t1 ∈ ts, ∀ t2 ∈ ts, t1.id.client_id = A →
      t2.id.client_id ≠ A → t1.id.transaction_id ≠ t2.id.transaction_id) :
    (currentAccount (applyAll AccountDatabase.new ts) B).available
      = (currentAccount (applyAll AccountDatabase.new
          (ts.filter (fun u => u.id.client_id != A))) B).available ∧
    (currentAccount (applyAll AccountDatabase.new ts) B).held
      = (currentAccount (applyAll AccountDatabase.new
          (ts.filter (fun u => u.id.client_id != A))) B).held := by
  have hA : ∀ t ∈ ts, t.id.client_id = A →
      (ts.any fun u => u.id.client_id == A
        && u.id.transaction_id == t.id.transaction_id) = true := by
    intro t ht htc
    rw [List.any_eq_true]
    exact ⟨t, ht, by simp [htc]⟩
  have hB : ∀ t ∈ ts, t.id.client_id ≠ A →
      (ts.any fun u => u.id.client_id == A
        && u.id.transaction_id == t.id.transaction_id) = false := by
    intro t ht htc
    rw [List.any_eq_false]
    intro u hu
    simp only [Bool.and_eq_true, beq_iff_eq, not_and]
    intro huc hutx
    exact hdisj u hu t ht huc htc hutx
  have key := noninterference_aux A
    (fun k => ts.any fun u => u.id.client_id == A && u.id.transaction_id == k)
    ts AccountDatabase.new AccountDatabase.new
    (fun _ _ => rfl) (fun _ _ => rfl) (fun _ _ => rfl) hA hB B hAB
  have hcur : currentAccount (applyAll AccountDatabase.new ts) B
      = currentAccount (applyAll AccountDatabase.new
          (ts.filter (fun u => u.id.client_id != A))) B := by
    unfold currentAccount
    rw [key]
  exact ⟨by rw [hcur], by rw [hcur]⟩

/-- Witness for C7 (amended): with client 2 using transaction id 1 and
client 1 using transaction id 5 (disjoint ids), client 1's final balances
are the same with and without client 2's record. -/
theorem c7_witness :
    (currentAccount (applyAll AccountDatabase.new
        [.Deposit ⟨2, 1⟩ 100000, .Deposit ⟨1, 5⟩ 70000]) 1).available
      = (currentAccount (applyAll AccountDatabase.new
          (([.Deposit ⟨2, 1⟩ 100000, .Deposit ⟨1, 5⟩ 70000] :
            List TransactionRecord).filter
            (fun u => u.id.client_id != 2))) 1).available ∧
    (currentAccount (applyAll AccountDatabase.new
        [.Deposit ⟨2, 1⟩ 100000, .Deposit ⟨1, 5⟩ 70000]) 1).held
      = (currentAccount (applyAll AccountDatabase.new
          (([.Deposit ⟨2, 1⟩ 100000, .Deposit ⟨1, 5⟩ 70000] :
            List TransactionRecord).filter
            (fun u => u.id.client_id != 2))) 1).held := by
  exact c7_client_noninterference
    [.Deposit ⟨2, 1⟩ 100000, .Deposit ⟨1, 5⟩ 70000] 2 1
    (by decide) (by decide)

end Fizzbuzz
